import Mathlib

/-!
Verification of the GenTrack uptime monitor (src/app.py) against its
natural-language specification.

Shallow embedding conventions:
* Wall-clock timestamps (`datetime` values, which Python stores with
  microsecond resolution) and monotonic elapsed times are represented as
  integers counting microseconds.  `timedelta.total_seconds()` of a
  difference `d` microseconds is the exact rational `d / 1000000`, and
  Python `int(...)` truncation toward zero on that quotient is
  `Int.tdiv d 1000000`.
* Byte strings are `List ℕ` (each entry one byte), Python `str` values are
  Lean `String`.
* The database tables are lists of rows; SQL `ORDER BY ... LIMIT 1`
  becomes a stable sort followed by `head?`, and scalar `MAX`-like
  subqueries become `List.max?`.
* Network I/O and the external JSON parser (`json.loads`) are inputs: the
  probe outcome is a parameter of `run_single_check`, and JSON parsing is
  a function parameter `jl : String → Option Json` (`none` models a parse
  exception).
-/

namespace GenTrack

/-- Decimal digits of a natural number, most significant first; `fuel`
bounds the recursion depth. -/
def natDigits : ℕ → ℕ → List Char
  | 0, _ => []
  | fuel + 1, n =>
    if n < 10 then [Char.ofNat (48 + n)]
    else natDigits fuel (n / 10) ++ [Char.ofNat (48 + n % 10)]

/-- Decimal rendering of a natural number (as Python `str(n)`). -/
def natToStr (n : ℕ) : String := String.mk (natDigits (n + 1) n)

/-- Decimal rendering of an integer (as Python `str(i)` / f-string interpolation). -/
def intToStr (i : ℤ) : String :=
  if i < 0 then "-" ++ natToStr i.natAbs else natToStr i.natAbs

/-- ASCII decimal digit test (`'0'`-`'9'`).  This is only the ASCII
restriction of Python `str.isdigit`, which is also true on non-ASCII digit
characters; the full per-character test is a field of `UnicodeData` below,
and the definitions that depend on the distinction take a `UnicodeData`
argument. -/
def isAsciiDigit (c : Char) : Bool := decide ('0' ≤ c ∧ c ≤ '9')

/-- The six ASCII whitespace characters.  Python `str.strip()` also strips
non-ASCII Unicode whitespace such as U+00A0; the full test is the `isSpace`
field of `UnicodeData` below. -/
def isPySpace (c : Char) : Bool :=
  decide (c = ' ' ∨ c = '\t' ∨ c = '\n' ∨ c = '\r' ∨ c = '\x0b' ∨ c = '\x0c')

/-- Strip leading and trailing ASCII whitespace from a character list: the
restriction of Python `str.strip()` to the six ASCII whitespace characters
(see `stripU` for the strip over the full Unicode whitespace data). -/
def stripChars (cs : List Char) : List Char :=
  ((cs.dropWhile isPySpace).reverse.dropWhile isPySpace).reverse

/-- Python `str.lower()` (ASCII letters; sufficient for the texts involved). -/
def pyLower (s : String) : String := String.mk (s.data.map Char.toLower)

/-- Split a character list on a separator character; mirrors Python
`str.split(sep)` for a one-character separator (so `[] ↦ [[]]`). -/
def splitOnChar (sep : Char) : List Char → List (List Char)
  | [] => [[]]
  | c :: rest =>
    match splitOnChar sep rest with
    | [] => [[]]
    | g :: gs => if c = sep then [] :: g :: gs else (c :: g) :: gs

/-- Contiguous-subsequence test: `containsSub pat hay` is Python
`pat in hay` on strings, viewed as character lists. -/
def containsSub (pat : List Char) : List Char → Bool
  | [] => pat.isEmpty
  | c :: rest => pat.isPrefixOf (c :: rest) || containsSub pat rest

/-- String form of `containsSub`: Python `pat in hay`. -/
def strContains (pat hay : String) : Bool := containsSub pat.data hay.data

/-- Continuation-byte test for UTF-8 (`0x80 ≤ b ≤ 0xBF`). -/
def utf8Cont (b : ℕ) : Bool := decide (0x80 ≤ b ∧ b ≤ 0xBF)

/-- Marker emitted at an invalid UTF-8 subsequence: U+FFFD under
`errors="replace"`, nothing under `errors="ignore"`. -/
def utf8Bad (replace : Bool) : List Char :=
  if replace then ['�'] else []

/-- Valid first continuation byte of a three-byte UTF-8 sequence led by `b1`
(excludes overlong forms and surrogates, as CPython does). -/
def utf8Cont3 (b1 b2 : ℕ) : Bool :=
  if b1 = 0xE0 then decide (0xA0 ≤ b2 ∧ b2 ≤ 0xBF)
  else if b1 = 0xED then decide (0x80 ≤ b2 ∧ b2 ≤ 0x9F)
  else utf8Cont b2

/-- Valid first continuation byte of a four-byte UTF-8 sequence led by `b1`
(excludes overlong forms and code points above U+10FFFF). -/
def utf8Cont4 (b1 b2 : ℕ) : Bool :=
  if b1 = 0xF0 then decide (0x90 ≤ b2 ∧ b2 ≤ 0xBF)
  else if b1 = 0xF4 then decide (0x80 ≤ b2 ∧ b2 ≤ 0x8F)
  else utf8Cont b2

/-- UTF-8 decoding of a byte list, following CPython `bytes.decode("utf-8",
errors=...)`: a maximal valid subpart of an ill-formed sequence is consumed
as one error, which emits U+FFFD when `replace` is true (`errors="replace"`)
and nothing when it is false (`errors="ignore"`).  The `fuel` argument only
drives the recursion; every step consumes at least one byte, so any fuel of
at least the list length gives the decoder itself. -/
def utf8DecodeGo (replace : Bool) : ℕ → List ℕ → List Char
  | 0, _ => []
  | _, [] => []
  | fuel + 1, b1 :: rest =>
    if b1 < 0x80 then Char.ofNat b1 :: utf8DecodeGo replace fuel rest
    else if 0xC2 ≤ b1 ∧ b1 ≤ 0xDF then
      match rest with
      | [] => utf8Bad replace
      | b2 :: rest2 =>
        if utf8Cont b2 then
          Char.ofNat ((b1 - 0xC0) * 0x40 + (b2 - 0x80)) :: utf8DecodeGo replace fuel rest2
        else utf8Bad replace ++ utf8DecodeGo replace fuel rest
    else if 0xE0 ≤ b1 ∧ b1 ≤ 0xEF then
      match rest with
      | [] => utf8Bad replace
      | b2 :: rest2 =>
        if utf8Cont3 b1 b2 then
          match rest2 with
          | [] => utf8Bad replace
          | b3 :: rest3 =>
            if utf8Cont b3 then
              Char.ofNat ((b1 - 0xE0) * 0x1000 + (b2 - 0x80) * 0x40 + (b3 - 0x80)) ::
                utf8DecodeGo replace fuel rest3
            else utf8Bad replace ++ utf8DecodeGo replace fuel rest2
        else utf8Bad replace ++ utf8DecodeGo replace fuel rest
    else if 0xF0 ≤ b1 ∧ b1 ≤ 0xF4 then
      match rest with
      | [] => utf8Bad replace
      | b2 :: rest2 =>
        if utf8Cont4 b1 b2 then
          match rest2 with
          | [] => utf8Bad replace
          | b3 :: rest3 =>
            if utf8Cont b3 then
              match rest3 with
              | [] => utf8Bad replace
              | b4 :: rest4 =>
                if utf8Cont b4 then
                  Char.ofNat ((b1 - 0xF0) * 0x40000 + (b2 - 0x80) * 0x1000 +
                      (b3 - 0x80) * 0x40 + (b4 - 0x80)) :: utf8DecodeGo replace fuel rest4
                else utf8Bad replace ++ utf8DecodeGo replace fuel rest3
            else utf8Bad replace ++ utf8DecodeGo replace fuel rest2
        else utf8Bad replace ++ utf8DecodeGo replace fuel rest
    else utf8Bad replace ++ utf8DecodeGo replace fuel rest

/-- UTF-8 decoding (see `utf8DecodeGo`). -/
def utf8Decode (replace : Bool) (bs : List ℕ) : List Char :=
  utf8DecodeGo replace bs.length bs

/-- Source `body_bytes.decode("utf-8", errors="ignore")`. -/
def decodeUtf8Ignore (bs : List ℕ) : String := String.mk (utf8Decode false bs)

/-- The decoding the spec asks for instead: `errors="replace"`. -/
def decodeUtf8Replace (bs : List ℕ) : String := String.mk (utf8Decode true bs)

/-- JSON values as produced by `json.loads`. -/
inductive Json where
  | null : Json
  | bool (b : Bool) : Json
  | num (n : ℤ) : Json
  | str (s : String) : Json
  | arr (elements : List Json) : Json
  | obj (fields : List (String × Json)) : Json

/-- Lookup of a key in a JSON object (Python `part in current` / `current[part]`). -/
def jsonLookup (fields : List (String × Json)) (key : String) : Option Json :=
  (fields.find? (fun f => f.1 = key)).map (fun f => f.2)

/-- Numeric value of an all-digit character list (Python `int(part)` for a
`part` that passed `isdigit`). -/
def digitsToNat (cs : List Char) : ℕ :=
  cs.foldl (fun a c => a * 10 + (c.toNat - 48)) 0

/-- Walk of `json_path_exists` restricted to ASCII digit parts: descend
through the dotted-path parts, objects by key and arrays by non-negative
integer index.  The source tests array parts with `part.isdigit()` and then
calls `int(part)`, which on the full Unicode data can raise `ValueError`
(an `isdigit`-true part such as `'²'` has no decimal value); `jsonWalkU`
below models that full behavior, and this ASCII restriction is used only by
the claims that do not depend on the distinction. -/
def jsonWalk : List (List Char) → Json → Bool
  | [], _ => true
  | part :: rest, current =>
    match current with
    | .obj fields =>
      match jsonLookup fields (String.mk part) with
      | some v => jsonWalk rest v
      | none => false
    | .arr elements =>
      if part ≠ [] ∧ part.all isAsciiDigit then
        match elements.get? (digitsToNat part) with
        | some v => jsonWalk rest v
        | none => false
      else false
    | _ => false

/-- Source `json_path_exists(data, path)`, in the ASCII restriction of
`jsonWalk` (see `json_path_exists_u` for the full digit semantics including
the `int(part)` `ValueError` path). -/
def json_path_exists (data : Json) (path : String) : Bool :=
  jsonWalk (splitOnChar '.' path.data) data

/-- Source `parse_expected_json_keys(raw_value)`: comma-split, strip,
drop empty parts (`None`/empty input gives `[]`). -/
def parse_expected_json_keys (raw_value : Option String) : List String :=
  match raw_value with
  | none => []
  | some s =>
    if s = "" then []
    else ((splitOnChar ',' s.data).map (fun p => String.mk (stripChars p))).filter
      (fun p => p ≠ "")

/-- A registered target row, with the fields the monitor core reads. -/
structure Target where
  id : ℤ
  name : String
  url : String
  interval_seconds : ℤ
  timeout_seconds : ℤ
  expected_substring : Option String
  expected_json_keys : Option String
  max_latency_ms : Option ℤ
deriving DecidableEq, Repr

/-- Source `validate_content_rules`, step three: the `expected_json_keys`
rule (reached when latency and substring rules passed). -/
def validate_json_step (jl : String → Option Json) (target : Target)
    (body_bytes : List ℕ) : Bool × Option String × Option String :=
  let expected_keys := parse_expected_json_keys target.expected_json_keys
  if expected_keys ≠ [] then
    match jl (decodeUtf8Ignore body_bytes) with
    | none => (false, some "invalid_json", some "Resposta nao e JSON valido.")
    | some data =>
      match expected_keys.find? (fun kp => !json_path_exists data kp) with
      | some kp => (false, some "json_schema_mismatch", some ("Chave JSON ausente: " ++ kp))
      | none => (true, none, none)
  else (true, none, none)

/-- Source `validate_content_rules`, step two: the `expected_substring`
rule (reached when the latency rule passed). -/
def validate_substring_step (jl : String → Option Json) (target : Target)
    (body_bytes : List ℕ) : Bool × Option String × Option String :=
  match target.expected_substring with
  | some s =>
    if s ≠ "" then
      if !strContains s (decodeUtf8Ignore body_bytes) then
        (false, some "content_mismatch",
          some ("Conteudo esperado nao encontrado: \x27" ++ s ++ "\x27."))
      else validate_json_step jl target body_bytes
    else validate_json_step jl target body_bytes
  | none => validate_json_step jl target body_bytes

/-- Source `validate_content_rules(target, body_bytes, latency_ms)`:
latency cap, then expected substring, then expected JSON keys; the first
failing rule returns `(False, reason_code, error_message)`. -/
def validate_content_rules (jl : String → Option Json) (target : Target)
    (body_bytes : List ℕ) (latency_ms : Option ℤ) : Bool × Option String × Option String :=
  match target.max_latency_ms, latency_ms with
  | some maxl, some lat =>
    if maxl < lat then
      (false, some "latency_exceeded",
        some ("Latencia acima do maximo (" ++ intToStr lat ++ "ms > " ++
          intToStr maxl ++ "ms)."))
    else validate_substring_step jl target body_bytes
  | _, _ => validate_substring_step jl target body_bytes

/-- Exceptions reaching the `except Exception` arm of `run_single_check`,
abstracted by the class tests `classify_exception` performs: a
`socket.timeout`/`TimeoutError`, a `urllib.error.URLError` (with the
`isinstance` facts about its `reason` and the texts `str(reason)` and
`str(exc)`), an `ssl.SSLError`, or any other exception with its text. -/
inductive PyExc where
  | timeoutErr (text : String) : PyExc
  | urlError (reason_is_gaierror : Bool) (reason_is_sslerror : Bool)
      (reason_text : String) (text : String) : PyExc
  | sslErr (text : String) : PyExc
  | otherErr (text : String) : PyExc
deriving DecidableEq, Repr

/-- Source `classify_exception(exc)`. -/
def classify_exception : PyExc → String × String
  | .timeoutErr _ => ("timeout", "Timeout de conexao.")
  | .urlError gai sslr rtext text =>
    let reason_text := pyLower rtext
    if gai || strContains "name or service not known" reason_text then
      ("dns_error", "Erro de DNS.")
    else if sslr || strContains "ssl" reason_text ||
        strContains "certificate" reason_text then
      ("ssl_error", "Erro SSL/TLS.")
    else if strContains "timed out" reason_text then
      ("timeout", "Timeout de conexao.")
    else ("connection_error", "Falha de conexao: " ++ text)
  | .sslErr _ => ("ssl_error", "Erro SSL/TLS.")
  | .otherErr text =>
    if strContains "timed out" (pyLower text) then ("timeout", "Timeout de conexao.")
    else ("unknown_error", if text = "" then "Erro desconhecido." else text)

/-- Outcome of the HTTP probe inside `run_single_check`: a response whose
body was read (any status code), an `HTTPError` (raised for error statuses
when not handled as a response), or any other exception. -/
inductive ProbeResult where
  | success (status_code : ℤ) (body_bytes : List ℕ) : ProbeResult
  | httpError (code : ℤ) : ProbeResult
  | failure (exc : PyExc) : ProbeResult
deriving Repr

/-- The check record fields computed by `run_single_check` and inserted
into the `checks` table. -/
structure CheckOut where
  status_code : Option ℤ
  latency_ms : Option ℤ
  is_up : Bool
  reason_code : Option String
  error_message : Option String
deriving DecidableEq, Repr

/-- Classification part of source `run_single_check(conn, target)`: from
the probe outcome and the elapsed monotonic time (microseconds, so that
`(perf_counter() - started) * 1000` is exactly `elapsed_us / 1000` ms and
Python `int(...)` is `Int.tdiv`), compute the check record fields. -/
def run_single_check (jl : String → Option Json) (target : Target)
    (outcome : ProbeResult) (elapsed_us : ℤ) : CheckOut :=
  match outcome with
  | .success status body =>
    let latency : ℤ := Int.tdiv elapsed_us 1000
    let is_up : Bool := decide (200 ≤ status ∧ status < 400)
    let reason_code : Option String :=
      if is_up then none else some (if 500 ≤ status then "http_5xx" else "http_4xx")
    let error_message : Option String :=
      if is_up then none else some ("HTTP " ++ intToStr status)
    if is_up then
      match validate_content_rules jl target body (some latency) with
      | (valid, rule_reason, rule_error) =>
        if valid then ⟨some status, some latency, is_up, reason_code, error_message⟩
        else ⟨some status, some latency, false, rule_reason, rule_error⟩
    else ⟨some status, some latency, is_up, reason_code, error_message⟩
  | .httpError code =>
    ⟨some code, some (Int.tdiv elapsed_us 1000), false,
      some (if 500 ≤ code then "http_5xx" else "http_4xx"),
      some ("HTTP " ++ intToStr code)⟩
  | .failure exc =>
    ⟨none, some (Int.tdiv elapsed_us 1000), false,
      some (classify_exception exc).1, some (classify_exception exc).2⟩

/-- An `incidents` table row. -/
structure Incident where
  id : ℤ
  target_id : ℤ
  started_at : ℤ
  ended_at : Option ℤ
  duration_seconds : Option ℤ
  is_resolved : Bool
  reason_code : Option String
  reason_message : Option String
  start_check_id : Option ℤ
  recovery_check_id : Option ℤ
deriving DecidableEq, Repr

/-- The row returned by source `get_last_check(conn, target_id)`
(columns `id, is_up, checked_at`). -/
structure LastCheck where
  id : ℤ
  is_up : Bool
  checked_at : ℤ
deriving DecidableEq, Repr

/-- The `current_check` dict built by `run_single_check` and handed to
`update_incident_state`. -/
structure CurrentCheck where
  id : ℤ
  checked_at : ℤ
  is_up : Bool
  reason_code : Option String
  error_message : Option String
deriving DecidableEq, Repr

/-- Source `get_open_incident(conn, target_id)`: the unresolved incidents of
the target, `ORDER BY started_at DESC LIMIT 1`. -/
def get_open_incident (incidents : List Incident) (target_id : ℤ) : Option Incident :=
  (List.insertionSort (fun a b => b.started_at ≤ a.started_at)
    (incidents.filter (fun i => i.target_id = target_id ∧ i.is_resolved = false))).head?

/-- The row inserted by the two `INSERT INTO incidents` statements of
`update_incident_state` (`fresh_id` stands for the `BIGSERIAL` id). -/
def newIncident (fresh_id : ℤ) (target_id : ℤ) (current_check : CurrentCheck) : Incident :=
  { id := fresh_id
    target_id := target_id
    started_at := current_check.checked_at
    ended_at := none
    duration_seconds := none
    is_resolved := false
    reason_code := current_check.reason_code
    reason_message := current_check.error_message
    start_check_id := some current_check.id
    recovery_check_id := none }

/-- The `UPDATE incidents SET ... WHERE id = open_incident.id` statement
closing `oi` with recovery check `current_check`, applied to the table. -/
def closeIncident (oi : Incident) (current_check : CurrentCheck) (i : Incident) : Incident :=
  if i.id = oi.id then
    { i with
      ended_at := some current_check.checked_at
      duration_seconds := some (max 0 (Int.tdiv (current_check.checked_at - oi.started_at) 1000000))
      is_resolved := true
      recovery_check_id := some current_check.id }
  else i

/-- Source `update_incident_state(conn, target, prev_check, current_check)`,
acting on the incidents table.  `duration_seconds` is Python
`max(0, int((current_check.checked_at - started_at).total_seconds()))`, i.e.
truncation toward zero of the microsecond difference over `10^6`. -/
def update_incident_state (incidents : List Incident) (fresh_id : ℤ) (target : Target)
    (prev_check : Option LastCheck) (current_check : CurrentCheck) : List Incident :=
  let target_id := target.id
  let prev_is_up : Option Bool := prev_check.map (fun c => c.is_up)
  let current_is_up := current_check.is_up
  let open_incident := get_open_incident incidents target_id
  if current_is_up then
    match prev_is_up, open_incident with
    | some false, some oi => incidents.map (closeIncident oi current_check)
    | _, _ => incidents
  else
    if prev_is_up ≠ some false ∧ open_incident = none then
      incidents ++ [newIncident fresh_id target_id current_check]
    else if prev_is_up = some false ∧ open_incident = none then
      incidents ++ [newIncident fresh_id target_id current_check]
    else incidents

/-- Number of unresolved incidents of a target in the table. -/
def open_incident_count (incidents : List Incident) (target_id : ℤ) : ℕ :=
  (incidents.filter (fun i => i.target_id = target_id ∧ i.is_resolved = false)).length

/-- A `checks` row as consulted by the due-target subquery. -/
structure CheckTime where
  target_id : ℤ
  checked_at : ℤ
deriving DecidableEq, Repr

/-- The scalar subquery of `get_due_targets`: the target's most recent
`checked_at` (`ORDER BY checked_at DESC LIMIT 1`). -/
def last_checked_at (checks : List CheckTime) (target_id : ℤ) : Option ℤ :=
  ((checks.filter (fun c => c.target_id = target_id)).map (fun c => c.checked_at)).max?

/-- Python `timedelta(seconds=s)` in microseconds. -/
def timedelta_seconds (s : ℤ) : ℤ := s * 1000000

/-- Source `get_due_targets(conn)`: all targets `ORDER BY t.id ASC`, keeping
those with no prior check or with `now - last_checked_at >=
timedelta(seconds=interval_seconds)`. -/
def get_due_targets (targets : List Target) (checks : List CheckTime) (now : ℤ) :
    List Target :=
  let rows := List.insertionSort (fun a b => a.id ≤ b.id) targets
  rows.filter (fun t =>
    match last_checked_at checks t.id with
    | none => true
    | some lca => decide (timedelta_seconds t.interval_seconds ≤ now - lca))

/-- Observable outcome of one tick of `monitor_loop`: the due targets whose
check transaction committed (in processing order), and the lines printed by
the `except` handler. -/
structure TickOutcome where
  committed : List ℤ
  log : List String
deriving DecidableEq, Repr

/-- The `for target in get_due_targets(conn): run_single_check(conn, target)`
loop of source `monitor_loop`, with its surrounding `try/except`:
`run` gives each target's `run_single_check` result (`Except.error` models a
raised exception).  Each successful iteration commits; the first exception
propagates out of the `for` loop, the handler rolls back the failed
transaction and prints one error line, and the remaining due targets of the
tick are not reached. -/
def monitor_tick (run : ℤ → Except String Unit) : List ℤ → TickOutcome
  | [] => ⟨[], []⟩
  | t :: ts =>
    match run t with
    | .ok _ =>
      let rest := monitor_tick run ts
      ⟨t :: rest.committed, rest.log⟩
    | .error e => ⟨[], ["[monitor] erro: " ++ e]⟩

/-- Modelled from the spec: the per-target error handling the spec describes
("on any failure: rollback, log the error, continue with the next target"),
in which a failed target is skipped but the loop goes on within the same
tick.  Used only to compare against `monitor_tick`. -/
def monitor_tick_spec (run : ℤ → Except String Unit) : List ℤ → TickOutcome
  | [] => ⟨[], []⟩
  | t :: ts =>
    let rest := monitor_tick_spec run ts
    match run t with
    | .ok _ => ⟨t :: rest.committed, rest.log⟩
    | .error e => ⟨rest.committed, ("[monitor] erro: " ++ e) :: rest.log⟩

/-- Unicode character data consulted by CPython string routines, supplied
as an input of the model (the Unicode character database is external to the
program, like the JSON parser): `isSpace` is the whitespace test of
`str.strip()`/`str.isspace()` and of `int(str)` stripping (true also on
non-ASCII whitespace such as U+00A0); `decimalDigit` is the decimal value
of a character, defined exactly on category-Nd characters of any script
(so `some 2` on both `'2'` and `'٢'`, `none` on `'²'`) — the digits
`int(str)` accepts; `isDigitChar` is the per-character test of
`str.isdigit`, true on every Nd character and also on further
digit-property characters such as `'²'` that have no decimal value (which
is why `int` can raise on an `isdigit`-true string). -/
structure UnicodeData where
  isSpace : Char → Bool
  decimalDigit : Char → Option ℕ
  isDigitChar : Char → Bool

/-- Strip leading and trailing whitespace per the given character data
(Python `str.strip()` / the stripping done by `int(str)`). -/
def stripU (ud : UnicodeData) (cs : List Char) : List Char :=
  ((cs.dropWhile ud.isSpace).reverse.dropWhile ud.isSpace).reverse

/-- Digit run of a Python integer literal: one or more decimal digits (of
any script, via their decimal values) with single underscores allowed
between digits, as accepted by `int(str)`. -/
def pyIntDigitsGo (ud : UnicodeData) (acc : ℕ) : List Char → Option ℕ
  | [] => some acc
  | c :: rest =>
    match ud.decimalDigit c with
    | some d => pyIntDigitsGo ud (acc * 10 + d) rest
    | none =>
      if c = '_' then
        match rest with
        | d :: rest2 =>
          match ud.decimalDigit d with
          | some dv => pyIntDigitsGo ud (acc * 10 + dv) rest2
          | none => none
        | [] => none
      else none

/-- Nonempty digit run starting with a digit (see `pyIntDigitsGo`). -/
def pyIntDigits (ud : UnicodeData) : List Char → Option ℕ
  | [] => none
  | c :: rest =>
    match ud.decimalDigit c with
    | some d => pyIntDigitsGo ud d rest
    | none => none

/-- Python `int(s)` for a string: strip whitespace, optional sign, decimal
digits of any script (underscores between digits allowed); `none` models
`ValueError`. -/
def py_int (ud : UnicodeData) (s : String) : Option ℤ :=
  match stripU ud s.data with
  | '+' :: rest => (pyIntDigits ud rest).map (fun n => (n : ℤ))
  | '-' :: rest => (pyIntDigits ud rest).map (fun n => -(n : ℤ))
  | cs => (pyIntDigits ud cs).map (fun n => (n : ℤ))

/-- Source constant `MAX_HISTORY_LIMIT`. -/
def MAX_HISTORY_LIMIT : ℤ := 500

/-- The `limit` handling of the source `target_history` endpoint:
`limit_raw = request.args.get("limit", "100")`, then
`max(1, min(MAX_HISTORY_LIMIT, int(limit_raw)))`, with a 400 error when
`int` raises `ValueError`. -/
def target_history_limit (ud : UnicodeData) (limit_param : Option String) :
    Except String ℤ :=
  let limit_raw := limit_param.getD "100"
  match py_int ud limit_raw with
  | some n => .ok (max 1 (min MAX_HISTORY_LIMIT n))
  | none => .error "Parametro \x27limit\x27 invalido."

/-- Python `int(part)` for a part every character of which passed
`isdigit()`: the base-10 value from the characters' decimal values, or
`ValueError` (`none`) when some `isdigit`-true character has no decimal
value (such as `'²'`).  Sign, whitespace and underscores cannot occur here
because they are not `isdigit`-true. -/
def intOfDigitChars (ud : UnicodeData) (cs : List Char) : Option ℕ :=
  cs.foldl
    (fun acc c =>
      match acc, ud.decimalDigit c with
      | some a, some d => some (a * 10 + d)
      | _, _ => none)
    (some 0)

/-- Source `json_path_exists` walk over the full digit semantics: objects
by key; on an array the source tests `part.isdigit()` (returning `False`
when it fails) and then computes `idx = int(part)`, which raises
`ValueError` — the `Except.error`, carrying `str(exc)` — when an
`isdigit`-true part has a character without decimal value. -/
def jsonWalkU (ud : UnicodeData) : List (List Char) → Json → Except String Bool
  | [], _ => .ok true
  | part :: rest, current =>
    match current with
    | .obj fields =>
      match jsonLookup fields (String.mk part) with
      | some v => jsonWalkU ud rest v
      | none => .ok false
    | .arr elements =>
      if part ≠ [] ∧ part.all ud.isDigitChar then
        match intOfDigitChars ud part with
        | some idx =>
          match elements.get? idx with
          | some v => jsonWalkU ud rest v
          | none => .ok false
        | none =>
          .error ("invalid literal for int() with base 10: \x27" ++ String.mk part ++ "\x27")
      else .ok false
    | _ => .ok false

/-- Source `json_path_exists(data, path)` over the full digit semantics. -/
def json_path_exists_u (ud : UnicodeData) (data : Json) (path : String) :
    Except String Bool :=
  jsonWalkU ud (splitOnChar '.' path.data) data

/-- Source `parse_expected_json_keys` with `str.strip()` over the full
whitespace data. -/
def parse_expected_json_keys_u (ud : UnicodeData) (raw_value : Option String) :
    List String :=
  match raw_value with
  | none => []
  | some s =>
    if s = "" then []
    else ((splitOnChar ',' s.data).map (fun p => String.mk (stripU ud p))).filter
      (fun p => p ≠ "")

/-- The `for key_path in expected_keys` loop of `validate_content_rules`
over the full digit semantics: the first path whose walk raises propagates
the exception, the first missing path returns the `json_schema_mismatch`
verdict, and a fully traversed list passes. -/
def jsonKeysLoop (ud : UnicodeData) (data : Json) :
    List String → Except String (Bool × Option String × Option String)
  | [] => .ok (true, none, none)
  | kp :: rest =>
    match json_path_exists_u ud data kp with
    | .error e => .error e
    | .ok false =>
      .ok (false, some "json_schema_mismatch", some ("Chave JSON ausente: " ++ kp))
    | .ok true => jsonKeysLoop ud data rest

/-- The JSON step of `validate_content_rules` over the full digit
semantics; an `Except.error` is a Python exception escaping the step. -/
def validate_json_step_u (ud : UnicodeData) (jl : String → Option Json)
    (target : Target) (body_bytes : List ℕ) :
    Except String (Bool × Option String × Option String) :=
  let expected_keys := parse_expected_json_keys_u ud target.expected_json_keys
  if expected_keys ≠ [] then
    match jl (decodeUtf8Ignore body_bytes) with
    | none => .ok (false, some "invalid_json", some "Resposta nao e JSON valido.")
    | some data => jsonKeysLoop ud data expected_keys
  else .ok (true, none, none)

/-- The substring step of `validate_content_rules` over the full digit
semantics (it cannot itself raise; it chains into the JSON step). -/
def validate_substring_step_u (ud : UnicodeData) (jl : String → Option Json)
    (target : Target) (body_bytes : List ℕ) :
    Except String (Bool × Option String × Option String) :=
  match target.expected_substring with
  | some s =>
    if s ≠ "" then
      if !strContains s (decodeUtf8Ignore body_bytes) then
        .ok (false, some "content_mismatch",
          some ("Conteudo esperado nao encontrado: \x27" ++ s ++ "\x27."))
      else validate_json_step_u ud jl target body_bytes
    else validate_json_step_u ud jl target body_bytes
  | none => validate_json_step_u ud jl target body_bytes

/-- Source `validate_content_rules` over the full digit semantics: as
`validate_content_rules`, but the JSON path walk can raise (`Except.error`
carries the exception text), in which case no rule verdict is produced. -/
def validate_content_rules_u (ud : UnicodeData) (jl : String → Option Json)
    (target : Target) (body_bytes : List ℕ) (latency_ms : Option ℤ) :
    Except String (Bool × Option String × Option String) :=
  match target.max_latency_ms, latency_ms with
  | some maxl, some lat =>
    if maxl < lat then
      .ok (false, some "latency_exceeded",
        some ("Latencia acima do maximo (" ++ intToStr lat ++ "ms > " ++
          intToStr maxl ++ "ms)."))
    else validate_substring_step_u ud jl target body_bytes
  | _, _ => validate_substring_step_u ud jl target body_bytes

/-- Classification part of source `run_single_check` over the full digit
semantics: as `run_single_check`, except that when the content-rule
evaluation raises (the `int(part)` `ValueError` of the JSON path walk), the
exception escapes the `with` block and lands in the same `except Exception`
arm: `status_code` keeps the value already assigned inside the `try`, the
latency is recomputed by the same formula, and `classify_exception` labels
the check (`unknown_error` for a `ValueError`). -/
def run_single_check_u (ud : UnicodeData) (jl : String → Option Json)
    (target : Target) (outcome : ProbeResult) (elapsed_us : ℤ) : CheckOut :=
  match outcome with
  | .success status body =>
    let latency : ℤ := Int.tdiv elapsed_us 1000
    let is_up : Bool := decide (200 ≤ status ∧ status < 400)
    let reason_code : Option String :=
      if is_up then none else some (if 500 ≤ status then "http_5xx" else "http_4xx")
    let error_message : Option String :=
      if is_up then none else some ("HTTP " ++ intToStr status)
    if is_up then
      match validate_content_rules_u ud jl target body (some latency) with
      | .ok (valid, rule_reason, rule_error) =>
        if valid then ⟨some status, some latency, is_up, reason_code, error_message⟩
        else ⟨some status, some latency, false, rule_reason, rule_error⟩
      | .error msg =>
        ⟨some status, some (Int.tdiv elapsed_us 1000), false,
          some (classify_exception (.otherErr msg)).1,
          some (classify_exception (.otherErr msg)).2⟩
    else ⟨some status, some latency, is_up, reason_code, error_message⟩
  | .httpError code =>
    ⟨some code, some (Int.tdiv elapsed_us 1000), false,
      some (if 500 ≤ code then "http_5xx" else "http_4xx"),
      some ("HTTP " ++ intToStr code)⟩
  | .failure exc =>
    ⟨none, some (Int.tdiv elapsed_us 1000), false,
      some (classify_exception exc).1, some (classify_exception exc).2⟩

/-- The latency rule of the classifier spec (first rule of the content
chain), as a standalone function for the rule-order statement. -/
def latency_rule (target : Target) (latency_ms : Option ℤ) : Option (String × String) :=
  match target.max_latency_ms, latency_ms with
  | some maxl, some lat =>
    if maxl < lat then
      some ("latency_exceeded",
        "Latencia acima do maximo (" ++ intToStr lat ++ "ms > " ++ intToStr maxl ++ "ms).")
    else none
  | _, _ => none

/-- The expected-substring rule as a standalone function. -/
def substring_rule (target : Target) (body_bytes : List ℕ) : Option (String × String) :=
  match target.expected_substring with
  | some s =>
    if s ≠ "" then
      if !strContains s (decodeUtf8Ignore body_bytes) then
        some ("content_mismatch", "Conteudo esperado nao encontrado: \x27" ++ s ++ "\x27.")
      else none
    else none
  | none => none

/-- The first failing path of the expected-JSON-keys rule (or its raise),
as a standalone function over the full digit semantics. -/
def jsonKeysFirstFail (ud : UnicodeData) (data : Json) :
    List String → Except String (Option (String × String))
  | [] => .ok none
  | kp :: rest =>
    match json_path_exists_u ud data kp with
    | .error e => .error e
    | .ok false => .ok (some ("json_schema_mismatch", "Chave JSON ausente: " ++ kp))
    | .ok true => jsonKeysFirstFail ud data rest

/-- The expected-JSON-keys rule as a standalone function over the full
digit semantics; `Except.error` is the escaping `int(part)` exception. -/
def json_rule_u (ud : UnicodeData) (jl : String → Option Json) (target : Target)
    (body_bytes : List ℕ) : Except String (Option (String × String)) :=
  let expected_keys := parse_expected_json_keys_u ud target.expected_json_keys
  if expected_keys ≠ [] then
    match jl (decodeUtf8Ignore body_bytes) with
    | none => .ok (some ("invalid_json", "Resposta nao e JSON valido."))
    | some data => jsonKeysFirstFail ud data expected_keys
  else .ok none

/-- First failing content rule (or the JSON rule's raise), in the order
latency, substring, JSON. -/
def first_failing_rule_u (ud : UnicodeData) (jl : String → Option Json)
    (target : Target) (body_bytes : List ℕ) (latency_ms : Option ℤ) :
    Except String (Option (String × String)) :=
  match latency_rule target latency_ms with
  | some f => .ok (some f)
  | none =>
    match substring_rule target body_bytes with
    | some f => .ok (some f)
    | none => json_rule_u ud jl target body_bytes

/-- Variant of `validate_content_rules` that receives the decoded body text
instead of decoding it: used to state which decoding the body checks see. -/
def validate_json_step_text (jl : String → Option Json) (target : Target)
    (body_text : String) : Bool × Option String × Option String :=
  let expected_keys := parse_expected_json_keys target.expected_json_keys
  if expected_keys ≠ [] then
    match jl body_text with
    | none => (false, some "invalid_json", some "Resposta nao e JSON valido.")
    | some data =>
      match expected_keys.find? (fun kp => !json_path_exists data kp) with
      | some kp => (false, some "json_schema_mismatch", some ("Chave JSON ausente: " ++ kp))
      | none => (true, none, none)
  else (true, none, none)

/-- Substring step on pre-decoded text (see `validate_json_step_text`). -/
def validate_substring_step_text (jl : String → Option Json) (target : Target)
    (body_text : String) : Bool × Option String × Option String :=
  match target.expected_substring with
  | some s =>
    if s ≠ "" then
      if !strContains s body_text then
        (false, some "content_mismatch",
          some ("Conteudo esperado nao encontrado: \x27" ++ s ++ "\x27."))
      else validate_json_step_text jl target body_text
    else validate_json_step_text jl target body_text
  | none => validate_json_step_text jl target body_text

/-- Content rules evaluated over a given body text (see
`validate_json_step_text`). -/
def validate_content_rules_text (jl : String → Option Json) (target : Target)
    (body_text : String) (latency_ms : Option ℤ) : Bool × Option String × Option String :=
  match target.max_latency_ms, latency_ms with
  | some maxl, some lat =>
    if maxl < lat then
      (false, some "latency_exceeded",
        some ("Latencia acima do maximo (" ++ intToStr lat ++ "ms > " ++
          intToStr maxl ++ "ms)."))
    else validate_substring_step_text jl target body_text
  | _, _ => validate_substring_step_text jl target body_text

/-- The closed reason-code taxonomy of the spec. -/
def reason_taxonomy : List String :=
  ["timeout", "dns_error", "ssl_error", "connection_error", "unknown_error",
   "http_4xx", "http_5xx", "latency_exceeded", "content_mismatch",
   "invalid_json", "json_schema_mismatch"]

/-- Stub JSON parser (every parse raises) used in the closed instances. -/
def exParse : String → Option Json := fun _ => none

/-- Sample target with an expected-substring rule. -/
def exTarget : Target := ⟨1, "X", "http://h/ok", 60, 8, some "ba", none, none⟩

/-- Sample target with a latency cap of 100 ms. -/
def exTargetLat : Target := ⟨2, "Y", "http://h/slow", 60, 8, none, none, some 100⟩

/-- Sample target with a 30-second interval. -/
def exTargetA : Target := ⟨1, "a", "http://h/a", 30, 8, none, none, none⟩

/-- Sample target with a 60-second interval. -/
def exTargetB : Target := ⟨2, "b", "http://h/b", 60, 8, none, none, none⟩

/-- Sample open incident row for target 1. -/
def exIncident : Incident :=
  ⟨5, 1, 100, none, none, false, some "http_5xx", some "HTTP 503", some 9, none⟩

/-- Sample recovering check (up) for target 1. -/
def exRecovery : CurrentCheck := ⟨12, 3100100, true, none, none⟩

/-- Sample failing check (down) for target 1. -/
def exDown : CurrentCheck := ⟨12, 200, false, some "http_5xx", some "HTTP 503"⟩

/-- Per-target run outcome used in the closed tick instances: target 5 raises. -/
def exRun : ℤ → Except String Unit := fun t => if t = 5 then .error "boom" else .ok ()

/-- Concrete character data used in the closed instances: a finite excerpt
of the Unicode database agreeing with CPython on every character it
mentions — the ASCII digits and whitespace; the Arabic-Indic digits `'٠'`,
`'٢'`, `'٥'` (category Nd, decimal values 0, 2, 5, accepted by `int`); the
superscript `'²'` (`isdigit`-true but without decimal value, so `int`
raises on it); and the no-break space U+00A0, which `int()` strips. -/
def exUnicode : UnicodeData where
  isSpace c := decide
    (c = ' ' ∨ c = '\t' ∨ c = '\n' ∨ c = '\r' ∨ c = '\x0b' ∨ c = '\x0c' ∨ c = '\u00A0')
  decimalDigit c :=
    if '0' ≤ c ∧ c ≤ '9' then some (c.toNat - 48)
    else if c = '٠' then some 0
    else if c = '٢' then some 2
    else if c = '٥' then some 5
    else none
  isDigitChar c :=
    decide ('0' ≤ c ∧ c ≤ '9') || decide (c = '٠' ∨ c = '٢' ∨ c = '٥') || decide (c = '²')

/-- JSON parser stub for the closed instances: parses the single body
`"[0]"` to a one-element array. -/
def exParseArr : String → Option Json :=
  fun s => if s = "[0]" then some (.arr [.num 0]) else none

/-- Sample target whose expected JSON key path is the superscript `'²'`. -/
def exTargetSup : Target := ⟨3, "Z", "http://h/j", 60, 8, none, some "²", none⟩

end GenTrack

namespace GenTrack

instance : IsTotal Target (fun a b => a.id ≤ b.id) := ⟨fun a b => le_total a.id b.id⟩

instance : IsTrans Target (fun a b => a.id ≤ b.id) := ⟨fun _ _ _ h1 h2 => le_trans h1 h2⟩

/-- A target list is empty exactly when its id-ordered version is. -/
theorem insertionSort_eq_nil_iff {α : Type} (r : α → α → Prop) [DecidableRel r]
    (l : List α) : List.insertionSort r l = [] ↔ l = [] := by
  constructor
  · intro h
    have hp := List.perm_insertionSort r l
    rw [h] at hp
    exact (hp.symm.eq_nil)
  · intro h
    rw [h]
    rfl

/-- `get_open_incident` returns `none` exactly when the target has no
unresolved incident in the table. -/
theorem get_open_incident_eq_none_iff (incidents : List Incident) (tid : ℤ) :
    get_open_incident incidents tid = none ↔
      incidents.filter (fun i => i.target_id = tid ∧ i.is_resolved = false) = [] := by
  unfold get_open_incident
  rw [List.head?_eq_none_iff, insertionSort_eq_nil_iff]

/-- An incident returned by `get_open_incident` is an unresolved row of the
target in the table. -/
theorem get_open_incident_mem {incidents : List Incident} {tid : ℤ} {oi : Incident}
    (h : get_open_incident incidents tid = some oi) :
    oi ∈ incidents ∧ oi.target_id = tid ∧ oi.is_resolved = false := by
  unfold get_open_incident at h
  have hsorted : oi ∈ List.insertionSort (fun a b => b.started_at ≤ a.started_at)
      (incidents.filter (fun i => i.target_id = tid ∧ i.is_resolved = false)) :=
    List.mem_of_mem_head? (by rw [Option.mem_def, h])
  have hfil : oi ∈ incidents.filter (fun i => i.target_id = tid ∧ i.is_resolved = false) :=
    (List.perm_insertionSort _ _).mem_iff.mp hsorted
  have hmf := List.mem_filter.mp hfil
  have hpred : oi.target_id = tid ∧ oi.is_resolved = false := by
    simpa using hmf.2
  exact ⟨hmf.1, hpred.1, hpred.2⟩

/-- Truncation toward zero and flooring agree after clamping at zero (for
the positive divisor `10^6`). -/
theorem max_tdiv_eq_max_floor (a : ℤ) :
    max 0 (Int.tdiv a 1000000) = max 0 ⌊(a : ℚ) / 1000000⌋ := by
  have hcast : ((1000000 : ℕ) : ℚ) = (1000000 : ℚ) := by norm_num
  have hfl : ⌊(a : ℚ) / 1000000⌋ = a / ((1000000 : ℕ) : ℤ) := by
    rw [← hcast, Rat.floor_intCast_div_natCast]
  rcases le_or_lt 0 a with ha | ha
  · rw [Int.tdiv_eq_ediv ha (by norm_num), hfl]
    norm_num
  · have h1 : Int.tdiv a 1000000 ≤ 0 := by
      have := Int.tdiv_nonneg (a := -a) (b := 1000000) (by omega) (by norm_num)
      rw [Int.neg_tdiv] at this
      omega
    have h2 : ⌊(a : ℚ) / 1000000⌋ ≤ 0 := by
      apply Int.floor_nonpos
      apply div_nonpos_of_nonpos_of_nonneg
      · exact_mod_cast ha.le
      · norm_num
    omega

/-- C3 counterexample: in `monitor_loop` the `except` handler sits outside
the `for` loop, so when the first due target of a tick fails, the second due
target is not processed in that tick, although running it would succeed;
the spec's per-target-continue behavior would process it. -/
theorem monitor_tick_continue_cex :
    (monitor_tick exRun [5, 6]).committed = [] ∧
      exRun 6 = .ok () ∧
      (monitor_tick_spec exRun [5, 6]).committed = [6] :=
  ⟨rfl, rfl, rfl⟩

/-- C3 (amended): during a scheduler tick, when processing a due target
raises, the failed transaction is rolled back (its check is not recorded),
the error is logged as one `"[monitor] erro: <detail>"` line, the earlier
targets of the tick keep their committed checks, and the remaining due
targets of the tick are skipped (processing resumes at the next tick). -/
theorem monitor_tick_failure_aborts_tick
    (run : ℤ → Except String Unit) (pre : List ℤ) (t : ℤ) (ts : List ℤ) (e : String)
    (hpre : ∀ u ∈ pre, run u = .ok ())
    (ht : run t = .error e) :
    monitor_tick run (pre ++ t :: ts) = ⟨pre, ["[monitor] erro: " ++ e]⟩ := by
  induction pre with
  | nil => simp [monitor_tick, ht]
  | cons u us ih =>
    have hu : run u = .ok () := hpre u (by simp)
    have hus : monitor_tick run (us ++ t :: ts) = ⟨us, ["[monitor] erro: " ++ e]⟩ :=
      ih (fun v hv => hpre v (by simp [hv]))
    simp [monitor_tick, hu, hus]

/-- C3 witness: a concrete tick with targets 3, 4, 5, 6 where 5 fails. -/
theorem monitor_tick_failure_aborts_tick_witness :
    monitor_tick exRun [3, 4, 5, 6] = ⟨[3, 4], ["[monitor] erro: " ++ "boom"]⟩ :=
  monitor_tick_failure_aborts_tick exRun [3, 4] 5 [6] "boom"
    (by intro u hu; simp only [List.mem_cons, List.not_mem_nil, or_false] at hu
        rcases hu with rfl | rfl <;> rfl)
    rfl

/-- C9: in the defensive-reopen case (previous check down, current check
down, no open incident) `update_incident_state` inserts a fresh unresolved
incident whose `started_at` is the current check's `checked_at` (not the
earlier down-transition time), whose `reason_code`/`reason_message` come
from the current check, and whose `start_check_id` is the current check's
id. -/
theorem update_incident_state_defensive_reopen
    (incidents : List Incident) (fresh_id : ℤ) (target : Target)
    (p : LastCheck) (cc : CurrentCheck)
    (hp : p.is_up = false) (hcc : cc.is_up = false)
    (ho : get_open_incident incidents target.id = none) :
    update_incident_state incidents fresh_id target (some p) cc =
      incidents ++
        [{ id := fresh_id
           target_id := target.id
           started_at := cc.checked_at
           ended_at := none
           duration_seconds := none
           is_resolved := false
           reason_code := cc.reason_code
           reason_message := cc.error_message
           start_check_id := some cc.id
           recovery_check_id := none }] := by
  unfold update_incident_state
  simp [hp, hcc, ho, newIncident]

/-- C9 witness: the defensive reopen on a concrete empty incidents table. -/
theorem update_incident_state_defensive_reopen_witness :
    update_incident_state [] 99 exTarget (some ⟨9, false, 50⟩) exDown =
      [{ id := 99
         target_id := exTarget.id
         started_at := exDown.checked_at
         ended_at := none
         duration_seconds := none
         is_resolved := false
         reason_code := exDown.reason_code
         reason_message := exDown.error_message
         start_check_id := some exDown.id
         recovery_check_id := none }] :=
  update_incident_state_defensive_reopen [] 99 exTarget ⟨9, false, 50⟩ exDown rfl rfl rfl

/-- C10: for any Unicode character data standard on the characters of the
default string "100" (the real database is), the `limit` parameter of the
history endpoint defaults to 100, any string that `int()` parses — decimal
digits of any script, Unicode whitespace around them — is clamped into
`[1, 500]` and accepted, and a string on which `int()` raises yields the
400 error. -/
theorem target_history_limit_clamps (ud : UnicodeData)
    (h1 : ud.decimalDigit '1' = some 1) (h0 : ud.decimalDigit '0' = some 0)
    (hs1 : ud.isSpace '1' = false) (hs0 : ud.isSpace '0' = false) :
    target_history_limit ud none = .ok 100 ∧
      (∀ s n, py_int ud s = some n →
        target_history_limit ud (some s) = .ok (max 1 (min MAX_HISTORY_LIMIT n)) ∧
          1 ≤ max 1 (min MAX_HISTORY_LIMIT n) ∧
          max 1 (min MAX_HISTORY_LIMIT n) ≤ 500) ∧
      (∀ s, py_int ud s = none →
        target_history_limit ud (some s) = .error "Parametro \x27limit\x27 invalido.") := by
  have hdata : "100".data = ['1', '0', '0'] := rfl
  have hdefault : py_int ud "100" = some 100 := by
    have hstrip : stripU ud "100".data = ['1', '0', '0'] := by
      simp [stripU, hdata, List.dropWhile, hs1, hs0]
    simp [py_int, hstrip, pyIntDigits, pyIntDigitsGo, h1, h0]
  refine ⟨?_, fun s n h => ?_, fun s h => ?_⟩
  · have hval : max 1 (min MAX_HISTORY_LIMIT (100 : ℤ)) = 100 := by
      unfold MAX_HISTORY_LIMIT
      omega
    simp [target_history_limit, hdefault, hval]
  · refine ⟨?_, ?_, ?_⟩
    · simp [target_history_limit, h]
    · exact le_max_left 1 _
    · have : min MAX_HISTORY_LIMIT n ≤ 500 := by
        unfold MAX_HISTORY_LIMIT
        omega
      unfold MAX_HISTORY_LIMIT at *
      omega
  · simp [target_history_limit, h]

/-- C10 witness, at the concrete character-data excerpt: no parameter gives
100; limit 700 is clamped to 500; the Arabic-Indic "٥٠" parses to 50 and is
accepted; a no-break-space-padded "42" is accepted; "abc" is the 400
error. -/
theorem target_history_limit_clamps_witness :
    target_history_limit exUnicode none = .ok 100 ∧
      target_history_limit exUnicode (some "700")
        = .ok (max 1 (min MAX_HISTORY_LIMIT 700)) ∧
      target_history_limit exUnicode (some "٥٠")
        = .ok (max 1 (min MAX_HISTORY_LIMIT 50)) ∧
      target_history_limit exUnicode (some "\u00A042 ")
        = .ok (max 1 (min MAX_HISTORY_LIMIT 42)) ∧
      target_history_limit exUnicode (some "abc")
        = .error "Parametro \x27limit\x27 invalido." :=
  ⟨(target_history_limit_clamps exUnicode rfl rfl rfl rfl).1,
    ((target_history_limit_clamps exUnicode rfl rfl rfl rfl).2.1 "700" 700 rfl).1,
    ((target_history_limit_clamps exUnicode rfl rfl rfl rfl).2.1 "٥٠" 50 rfl).1,
    ((target_history_limit_clamps exUnicode rfl rfl rfl rfl).2.1 "\u00A042 " 42 rfl).1,
    (target_history_limit_clamps exUnicode rfl rfl rfl rfl).2.2 "abc" rfl⟩

/-- Case analysis of `update_incident_state`: it leaves the table unchanged,
closes the open incident, or appends one fresh unresolved incident when the
current check is down and no incident is open. -/
theorem update_incident_state_cases (incidents : List Incident) (fresh_id : ℤ)
    (target : Target) (prev_check : Option LastCheck) (current_check : CurrentCheck) :
    update_incident_state incidents fresh_id target prev_check current_check = incidents ∨
      (∃ oi, get_open_incident incidents target.id = some oi ∧
        current_check.is_up = true ∧
        update_incident_state incidents fresh_id target prev_check current_check
          = incidents.map (closeIncident oi current_check)) ∨
      (get_open_incident incidents target.id = none ∧ current_check.is_up = false ∧
        update_incident_state incidents fresh_id target prev_check current_check
          = incidents ++ [newIncident fresh_id target.id current_check]) := by
  unfold update_incident_state
  rcases hc : current_check.is_up with _ | _
  · rcases ho : get_open_incident incidents target.id with _ | oi
    · by_cases hpf : prev_check.map (fun c => c.is_up) = some false
      · right; right
        refine ⟨rfl, rfl, ?_⟩
        simp [hpf, ho]
      · right; right
        refine ⟨rfl, rfl, ?_⟩
        simp [hpf, ho]
    · left
      simp [ho]
  · rcases ho : get_open_incident incidents target.id with _ | oi
    · left
      rcases hp : prev_check.map (fun c => c.is_up) with _ | b
      · simp [hp, ho]
      · rcases b with _ | _ <;> simp [hp, ho]
    · rcases hp : prev_check.map (fun c => c.is_up) with _ | b
      · left; simp [hp, ho]
      · rcases b with _ | _
        · right; left
          exact ⟨oi, rfl, rfl, by simp [hp, ho]⟩
        · left; simp [hp, ho]

/-- Closing an incident does not raise the number of unresolved incidents of
any target. -/
theorem open_count_map_close_le (incidents : List Incident) (oi : Incident)
    (cc : CurrentCheck) (tid : ℤ) :
    open_incident_count (incidents.map (closeIncident oi cc)) tid
      ≤ open_incident_count incidents tid := by
  unfold open_incident_count
  rw [← List.countP_eq_length_filter, ← List.countP_eq_length_filter, List.countP_map]
  apply List.countP_mono_left
  intro i _ hp
  unfold closeIncident at hp
  by_cases hid : i.id = oi.id
  · simp [Function.comp, hid] at hp
  · simpa [Function.comp, hid] using hp

/-- C1: every invocation of `update_incident_state` preserves the per-target
invariant that at most one incident is unresolved, and it never inserts a
new incident when an open incident already exists (the table size is
unchanged then). -/
theorem update_incident_state_at_most_one_open
    (incidents : List Incident) (fresh_id : ℤ) (target : Target)
    (prev_check : Option LastCheck) (current_check : CurrentCheck)
    (h : open_incident_count incidents target.id ≤ 1) :
    open_incident_count
        (update_incident_state incidents fresh_id target prev_check current_check)
        target.id ≤ 1 ∧
      (get_open_incident incidents target.id ≠ none →
        (update_incident_state incidents fresh_id target prev_check current_check).length
          = incidents.length) := by
  rcases update_incident_state_cases incidents fresh_id target prev_check current_check with
    heq | ⟨oi, ho, hup, heq⟩ | ⟨ho, hdown, heq⟩
  · rw [heq]
    exact ⟨h, fun _ => rfl⟩
  · rw [heq]
    exact ⟨le_trans (open_count_map_close_le incidents oi current_check target.id) h,
      fun _ => List.length_map incidents (closeIncident oi current_check)⟩
  · rw [heq]
    constructor
    · have h0 : incidents.filter
          (fun i => i.target_id = target.id ∧ i.is_resolved = false) = [] :=
        (get_open_incident_eq_none_iff incidents target.id).mp ho
      unfold open_incident_count
      rw [List.filter_append, h0]
      simp [newIncident]
    · intro hne
      exact absurd ho hne

/-- C1 witness: a concrete invocation on a table already holding the open
incident of target 1, with a new down check: nothing is inserted. -/
theorem update_incident_state_at_most_one_open_witness :
    open_incident_count (update_incident_state [exIncident] 99 exTarget none exDown)
        exTarget.id ≤ 1 ∧
      (get_open_incident [exIncident] exTarget.id ≠ none →
        (update_incident_state [exIncident] 99 exTarget none exDown).length
          = [exIncident].length) :=
  update_incident_state_at_most_one_open [exIncident] 99 exTarget none exDown (by decide)

/-- C2: when the previous check is down, the current check is up and an
incident is open, `update_incident_state` closes exactly that incident,
setting `ended_at` to the current check's `checked_at`, `duration_seconds`
to `max(0, floor((ended_at - started_at) in seconds))` (the microsecond
difference floored over `10^6`), `is_resolved` to true and
`recovery_check_id` to the current check's id — a check that has
`is_up = true`. -/
theorem update_incident_state_close_fields
    (incidents : List Incident) (fresh_id : ℤ) (target : Target)
    (p : LastCheck) (cc : CurrentCheck) (oi : Incident)
    (hp : p.is_up = false) (hcc : cc.is_up = true)
    (ho : get_open_incident incidents target.id = some oi) :
    update_incident_state incidents fresh_id target (some p) cc
        = incidents.map (closeIncident oi cc) ∧
      { oi with
          ended_at := some cc.checked_at
          duration_seconds :=
            some (max 0 ⌊((cc.checked_at - oi.started_at : ℤ) : ℚ) / 1000000⌋)
          is_resolved := true
          recovery_check_id := some cc.id } ∈
        update_incident_state incidents fresh_id target (some p) cc ∧
      cc.is_up = true := by
  have heq : update_incident_state incidents fresh_id target (some p) cc
      = incidents.map (closeIncident oi cc) := by
    unfold update_incident_state
    simp [hp, hcc, ho]
  refine ⟨heq, ?_, hcc⟩
  rw [heq]
  have hmem : oi ∈ incidents := (get_open_incident_mem ho).1
  have hclose : closeIncident oi cc oi =
      { oi with
        ended_at := some cc.checked_at
        duration_seconds :=
          some (max 0 ⌊((cc.checked_at - oi.started_at : ℤ) : ℚ) / 1000000⌋)
        is_resolved := true
        recovery_check_id := some cc.id } := by
    unfold closeIncident
    rw [if_pos rfl, max_tdiv_eq_max_floor]
  exact hclose ▸ List.mem_map_of_mem (closeIncident oi cc) hmem

/-- C2 witness: closing the concrete open incident of target 1 with a
recovery check 3.0001 seconds later. -/
theorem update_incident_state_close_fields_witness :
    update_incident_state [exIncident] 99 exTarget (some ⟨9, false, 50⟩) exRecovery
        = [exIncident].map (closeIncident exIncident exRecovery) ∧
      { exIncident with
          ended_at := some exRecovery.checked_at
          duration_seconds :=
            some (max 0 ⌊((exRecovery.checked_at - exIncident.started_at : ℤ) : ℚ) / 1000000⌋)
          is_resolved := true
          recovery_check_id := some exRecovery.id } ∈
        update_incident_state [exIncident] 99 exTarget (some ⟨9, false, 50⟩) exRecovery ∧
      exRecovery.is_up = true :=
  update_incident_state_close_fields [exIncident] 99 exTarget ⟨9, false, 50⟩ exRecovery
    exIncident rfl rfl (by decide)

/-- C4: `get_due_targets` returns exactly the targets with no prior check or
with `now - last_checked_at` at least `interval_seconds`, ordered by target
id ascending. -/
theorem get_due_targets_due_iff_sorted
    (targets : List Target) (checks : List CheckTime) (now : ℤ) :
    (∀ t : Target, t ∈ get_due_targets targets checks now ↔
        t ∈ targets ∧
          (last_checked_at checks t.id = none ∨
            ∃ lca, last_checked_at checks t.id = some lca ∧
              timedelta_seconds t.interval_seconds ≤ now - lca)) ∧
      List.Pairwise (fun a b : Target => a.id ≤ b.id) (get_due_targets targets checks now) := by
  constructor
  · intro t
    unfold get_due_targets
    rw [List.mem_filter]
    constructor
    · rintro ⟨hmem, hpred⟩
      refine ⟨(List.perm_insertionSort _ targets).mem_iff.mp hmem, ?_⟩
      rcases hl : last_checked_at checks t.id with _ | lca
      · exact Or.inl rfl
      · refine Or.inr ⟨lca, rfl, ?_⟩
        rw [hl] at hpred
        simpa using hpred
    · rintro ⟨hmem, hdue⟩
      refine ⟨(List.perm_insertionSort _ targets).mem_iff.mpr hmem, ?_⟩
      rcases hl : last_checked_at checks t.id with _ | lca
      · simp [hl]
      · rcases hdue with hnone | ⟨lca', hsome, hle⟩
        · rw [hl] at hnone
          cases hnone
        · rw [hl] at hsome
          injection hsome with h'
          subst h'
          simp [hl, hle]
  · exact List.Pairwise.sublist (List.filter_sublist _)
      (List.sorted_insertionSort (fun a b : Target => a.id ≤ b.id) targets)

/-- C4 witness: target 1 (interval 30 s, last checked 30 s ago) is due and
the concrete due list is id-sorted. -/
theorem get_due_targets_due_iff_sorted_witness :
    exTargetA ∈ get_due_targets [exTargetB, exTargetA] [⟨1, 100000000⟩] 130000000 ∧
      List.Pairwise (fun a b : Target => a.id ≤ b.id)
        (get_due_targets [exTargetB, exTargetA] [⟨1, 100000000⟩] 130000000) :=
  ⟨((get_due_targets_due_iff_sorted [exTargetB, exTargetA] [⟨1, 100000000⟩] 130000000).1
      exTargetA).mpr ⟨by decide, Or.inr ⟨100000000, by decide, by decide⟩⟩,
    (get_due_targets_due_iff_sorted [exTargetB, exTargetA] [⟨1, 100000000⟩] 130000000).2⟩

/-- C7 counterexample: a probe measured at 42700 microseconds gets
`latency_ms = 42` (Python `int(...)` truncation), while rounding the elapsed
milliseconds to the nearest integer gives 43. -/
theorem run_single_check_latency_truncates_cex :
    (run_single_check exParse exTarget (.httpError 503) 42700).latency_ms = some 42 ∧
      round (((42700 : ℤ) : ℚ) / 1000000 * 1000) = 43 ∧
      (run_single_check exParse exTarget (.httpError 503) 42700).latency_ms
        ≠ some (round (((42700 : ℤ) : ℚ) / 1000000 * 1000)) := by
  have h42 : (run_single_check exParse exTarget (.httpError 503) 42700).latency_ms
      = some 42 := by decide
  have h43 : round (((42700 : ℤ) : ℚ) / 1000000 * 1000) = 43 := by
    norm_num [round_eq]
  refine ⟨h42, h43, ?_⟩
  rw [h42, h43]
  decide

/-- C7 (amended): in every branch of `run_single_check` — response read,
`HTTPError`, and any other exception — `latency_ms` is the elapsed monotonic
time in milliseconds truncated toward zero by Python `int(...)` (which is
the floor of the elapsed milliseconds whenever the elapsed time is
non-negative), not rounded to nearest. -/
theorem run_single_check_latency_truncates
    (jl : String → Option Json) (target : Target) (outcome : ProbeResult)
    (elapsed_us : ℤ) :
    (run_single_check jl target outcome elapsed_us).latency_ms
        = some (Int.tdiv elapsed_us 1000) ∧
      (0 ≤ elapsed_us →
        Int.tdiv elapsed_us 1000 = ⌊((elapsed_us : ℚ) / 1000000) * 1000⌋) := by
  constructor
  · cases outcome with
    | success status body =>
      simp only [run_single_check]
      split
      · split <;> rfl
      · rfl
    | httpError code => rfl
    | failure exc => rfl
  · intro h
    have h1000 : ((elapsed_us : ℚ) / 1000000) * 1000 = (elapsed_us : ℚ) / 1000 := by
      ring
    have hcast : ((1000 : ℕ) : ℚ) = (1000 : ℚ) := by norm_num
    rw [h1000, ← hcast, Rat.floor_intCast_div_natCast, Int.tdiv_eq_ediv h (by norm_num)]
    norm_num

/-- C7 witness: the truncation at a concrete failing probe measured at
42700 microseconds. -/
theorem run_single_check_latency_truncates_witness :
    (run_single_check exParse exTarget (.failure (.timeoutErr "t")) 42700).latency_ms
        = some (Int.tdiv 42700 1000) ∧
      Int.tdiv 42700 1000 = ⌊(((42700 : ℤ) : ℚ) / 1000000) * 1000⌋ :=
  ⟨(run_single_check_latency_truncates exParse exTarget (.failure (.timeoutErr "t")) 42700).1,
    (run_single_check_latency_truncates exParse exTarget (.failure (.timeoutErr "t")) 42700).2
      (by decide)⟩

/-- Reason codes produced by `classify_exception` lie in the transport part
of the taxonomy. -/
theorem classify_exception_reason_mem (exc : PyExc) :
    (classify_exception exc).1 ∈
      ["timeout", "dns_error", "ssl_error", "connection_error", "unknown_error"] := by
  cases exc with
  | timeoutErr t => simp [classify_exception]
  | urlError g s r t =>
    simp only [classify_exception]
    split_ifs <;> simp
  | sslErr t => simp [classify_exception]
  | otherErr t =>
    simp only [classify_exception]
    split_ifs <;> simp

/-- Shape of the JSON step: success triple or a failure with one of the two
JSON reasons. -/
theorem validate_json_step_shape (jl : String → Option Json) (target : Target)
    (body : List ℕ) :
    validate_json_step jl target body = (true, none, none) ∨
      ∃ r m, validate_json_step jl target body = (false, some r, some m) ∧
        r ∈ ["invalid_json", "json_schema_mismatch"] := by
  by_cases h : parse_expected_json_keys target.expected_json_keys = []
  · left
    simp [validate_json_step, h]
  · rcases hj : jl (decodeUtf8Ignore body) with _ | data
    · right
      refine ⟨"invalid_json", "Resposta nao e JSON valido.", ?_, by simp⟩
      simp [validate_json_step, h, hj]
    · rcases hf : (parse_expected_json_keys target.expected_json_keys).find?
          (fun kp => !json_path_exists data kp) with _ | kp
      · left
        simp [validate_json_step, h, hj, hf]
      · right
        refine ⟨"json_schema_mismatch", "Chave JSON ausente: " ++ kp, ?_, by simp⟩
        simp [validate_json_step, h, hj, hf]

/-- Shape of the substring-then-JSON chain. -/
theorem validate_substring_step_shape (jl : String → Option Json) (target : Target)
    (body : List ℕ) :
    validate_substring_step jl target body = (true, none, none) ∨
      ∃ r m, validate_substring_step jl target body = (false, some r, some m) ∧
        r ∈ ["content_mismatch", "invalid_json", "json_schema_mismatch"] := by
  have hlift : validate_json_step jl target body = (true, none, none) ∨
      ∃ r m, validate_json_step jl target body = (false, some r, some m) ∧
        r ∈ ["content_mismatch", "invalid_json", "json_schema_mismatch"] := by
    rcases validate_json_step_shape jl target body with hj | ⟨r, m, hj, hr⟩
    · exact Or.inl hj
    · refine Or.inr ⟨r, m, hj, ?_⟩
      simp only [List.mem_cons, List.mem_singleton] at hr ⊢
      tauto
  rcases hs : target.expected_substring with _ | s
  · simpa [validate_substring_step, hs] using hlift
  · by_cases h1 : s = ""
    · simpa [validate_substring_step, hs, h1] using hlift
    · by_cases h2 : strContains s (decodeUtf8Ignore body) = true
      · simpa [validate_substring_step, hs, h1, h2] using hlift
      · right
        refine ⟨"content_mismatch",
          "Conteudo esperado nao encontrado: \x27" ++ s ++ "\x27.", ?_, by simp⟩
        simp [validate_substring_step, hs, h1, h2]

/-- Shape of the full rule chain: success triple or a failure with one of
the four content reasons. -/
theorem validate_content_rules_shape (jl : String → Option Json) (target : Target)
    (body : List ℕ) (lat : Option ℤ) :
    validate_content_rules jl target body lat = (true, none, none) ∨
      ∃ r m, validate_content_rules jl target body lat = (false, some r, some m) ∧
        r ∈ ["latency_exceeded", "content_mismatch", "invalid_json",
             "json_schema_mismatch"] := by
  have hlift : validate_substring_step jl target body = (true, none, none) ∨
      ∃ r m, validate_substring_step jl target body = (false, some r, some m) ∧
        r ∈ ["latency_exceeded", "content_mismatch", "invalid_json",
             "json_schema_mismatch"] := by
    rcases validate_substring_step_shape jl target body with hj | ⟨r, m, hj, hr⟩
    · exact Or.inl hj
    · refine Or.inr ⟨r, m, hj, ?_⟩
      simp only [List.mem_cons, List.mem_singleton] at hr ⊢
      tauto
  rcases hm : target.max_latency_ms with _ | maxl
  · simpa [validate_content_rules, hm] using hlift
  · rcases hl : lat with _ | l
    · simpa [validate_content_rules, hm, hl] using hlift
    · by_cases h : maxl < l
      · right
        refine ⟨"latency_exceeded",
          "Latencia acima do maximo (" ++ intToStr l ++ "ms > " ++ intToStr maxl ++ "ms).",
          ?_, by simp⟩
        simp [validate_content_rules, hm, hl, h]
      · simpa [validate_content_rules, hm, hl, h] using hlift

/-- C8: every check record of `run_single_check` has `reason_code = none`
exactly when `is_up = true`, and a down check carries one of the eleven
closed-taxonomy reason codes. -/
theorem run_single_check_reason_code_taxonomy
    (jl : String → Option Json) (target : Target) (outcome : ProbeResult)
    (elapsed_us : ℤ) :
    ((run_single_check jl target outcome elapsed_us).is_up = true ↔
        (run_single_check jl target outcome elapsed_us).reason_code = none) ∧
      ((run_single_check jl target outcome elapsed_us).is_up = false →
        ∃ r, (run_single_check jl target outcome elapsed_us).reason_code = some r ∧
          r ∈ reason_taxonomy) := by
  cases outcome with
  | success status body =>
    by_cases hs : 200 ≤ status ∧ status < 400
    · have hdec : decide (200 ≤ status ∧ status < 400) = true := by simpa using hs
      simp only [run_single_check, hdec, if_true]
      rcases validate_content_rules_shape jl target body
          (some (Int.tdiv elapsed_us 1000)) with hv | ⟨r, m, hv, hr⟩
      · rw [hv]
        simp
      · rw [hv]
        simp only [List.mem_cons, List.mem_singleton] at hr
        refine ⟨by simp, fun _ => ⟨r, by simp, ?_⟩⟩
        simp only [reason_taxonomy, List.mem_cons, List.mem_singleton]
        tauto
    · have hdec : decide (200 ≤ status ∧ status < 400) = false := by simpa using hs
      simp only [run_single_check, hdec, Bool.false_eq_true, if_false]
      by_cases h5 : 500 ≤ status <;>
        simp [h5, reason_taxonomy]
  | httpError code =>
    simp only [run_single_check]
    by_cases h5 : 500 ≤ code <;>
      simp [h5, reason_taxonomy]
  | failure exc =>
    have hmem := classify_exception_reason_mem exc
    simp only [run_single_check]
    refine ⟨by simp, fun _ => ⟨(classify_exception exc).1, rfl, ?_⟩⟩
    simp only [List.mem_cons, List.mem_singleton] at hmem
    simp only [reason_taxonomy, List.mem_cons, List.mem_singleton]
    tauto

/-- C8 witness: the concrete 503 check is down with reason `http_5xx` in the
taxonomy. -/
theorem run_single_check_reason_code_taxonomy_witness :
    ((run_single_check exParse exTarget (.httpError 503) 42700).is_up = true ↔
        (run_single_check exParse exTarget (.httpError 503) 42700).reason_code = none) ∧
      ∃ r, (run_single_check exParse exTarget (.httpError 503) 42700).reason_code
          = some r ∧ r ∈ reason_taxonomy :=
  ⟨(run_single_check_reason_code_taxonomy exParse exTarget (.httpError 503) 42700).1,
    (run_single_check_reason_code_taxonomy exParse exTarget (.httpError 503) 42700).2
      (by decide)⟩

/-- The key-path loop of the JSON step agrees with its first-failing (or
first-raising) reading. -/
theorem jsonKeysLoop_eq_firstFail (ud : UnicodeData) (data : Json) (keys : List String) :
    jsonKeysLoop ud data keys =
      match jsonKeysFirstFail ud data keys with
      | .ok (some f) => .ok (false, some f.1, some f.2)
      | .ok none => .ok (true, none, none)
      | .error e => .error e := by
  induction keys with
  | nil => rfl
  | cons kp rest ih =>
    rcases hw : json_path_exists_u ud data kp with e | b
    · simp [jsonKeysLoop, jsonKeysFirstFail, hw]
    · rcases b
      · simp [jsonKeysLoop, jsonKeysFirstFail, hw]
      · simpa [jsonKeysLoop, jsonKeysFirstFail, hw] using ih

/-- The JSON step agrees with the standalone JSON rule (raises included). -/
theorem validate_json_step_u_eq_rule (ud : UnicodeData) (jl : String → Option Json)
    (target : Target) (body : List ℕ) :
    validate_json_step_u ud jl target body =
      match json_rule_u ud jl target body with
      | .ok (some f) => .ok (false, some f.1, some f.2)
      | .ok none => .ok (true, none, none)
      | .error e => .error e := by
  by_cases h : parse_expected_json_keys_u ud target.expected_json_keys = []
  · simp [validate_json_step_u, json_rule_u, h]
  · rcases hj : jl (decodeUtf8Ignore body) with _ | data
    · simp [validate_json_step_u, json_rule_u, h, hj]
    · simp only [validate_json_step_u, json_rule_u, h, hj, ne_eq,
        not_false_iff, if_true]
      exact jsonKeysLoop_eq_firstFail ud data _

/-- The substring step agrees with the standalone substring rule chained
before the JSON step. -/
theorem validate_substring_step_u_eq_rule (ud : UnicodeData)
    (jl : String → Option Json) (target : Target) (body : List ℕ) :
    validate_substring_step_u ud jl target body =
      match substring_rule target body with
      | some f => .ok (false, some f.1, some f.2)
      | none => validate_json_step_u ud jl target body := by
  rcases hs : target.expected_substring with _ | s
  · simp [validate_substring_step_u, substring_rule, hs]
  · by_cases h1 : s = ""
    · simp [validate_substring_step_u, substring_rule, hs, h1]
    · by_cases h2 : strContains s (decodeUtf8Ignore body) = true <;>
        simp [validate_substring_step_u, substring_rule, hs, h1, h2]

/-- `validate_content_rules` (full digit semantics) returns exactly the
verdict of the first failing rule in the order latency, substring, JSON —
the success triple when every configured rule passes, and the JSON walk's
exception when the walk raises before any verdict. -/
theorem validate_content_rules_u_eq_first_failing (ud : UnicodeData)
    (jl : String → Option Json) (target : Target) (body : List ℕ) (lat : Option ℤ) :
    validate_content_rules_u ud jl target body lat =
      match first_failing_rule_u ud jl target body lat with
      | .ok (some f) => .ok (false, some f.1, some f.2)
      | .ok none => .ok (true, none, none)
      | .error e => .error e := by
  have hsub : validate_substring_step_u ud jl target body =
      match (match substring_rule target body with
             | some f => Except.ok (some f)
             | none => json_rule_u ud jl target body) with
      | .ok (some f) => .ok (false, some f.1, some f.2)
      | .ok none => .ok (true, none, none)
      | .error e => .error e := by
    rw [validate_substring_step_u_eq_rule]
    rcases substring_rule target body with _ | f
    · rw [validate_json_step_u_eq_rule]
    · rfl
  rcases hm : target.max_latency_ms with _ | maxl
  · simp only [validate_content_rules_u, first_failing_rule_u, latency_rule, hm]
    exact hsub
  · rcases hl : lat with _ | l
    · simp only [validate_content_rules_u, first_failing_rule_u, latency_rule, hm, hl]
      exact hsub
    · by_cases h : maxl < l
      · simp [validate_content_rules_u, first_failing_rule_u, latency_rule, hm, hl, h]
      · simp only [validate_content_rules_u, first_failing_rule_u, latency_rule, hm,
          hl, if_neg h]
        exact hsub

/-- C5 counterexample: a 200 response on a target whose JSON rule walks the
path `'²'` into the array `[0]`.  `'²'.isdigit()` is true but `int('²')`
raises, the `ValueError` escapes `validate_content_rules`, the generic
exception handler classifies the check `unknown_error` with the exception
text — a reason no content rule produces — so the first failing content
rule does not determine `(is_up, reason_code, error_message)` on this
input. -/
theorem run_single_check_content_rule_order_cex :
    (run_single_check_u exUnicode exParseArr exTargetSup
        (.success 200 [0x5B, 0x30, 0x5D]) 5000).reason_code = some "unknown_error" ∧
      (run_single_check_u exUnicode exParseArr exTargetSup
        (.success 200 [0x5B, 0x30, 0x5D]) 5000).is_up = false ∧
      (run_single_check_u exUnicode exParseArr exTargetSup
        (.success 200 [0x5B, 0x30, 0x5D]) 5000).error_message
        = some "invalid literal for int() with base 10: \x27²\x27" ∧
      "unknown_error" ∉
        ["latency_exceeded", "content_mismatch", "invalid_json",
         "json_schema_mismatch"] :=
  ⟨by decide, by decide, by decide, by decide⟩

/-- C5 (amended): for a transport-successful probe with status in
`[200, 400)`, the check's `(is_up, reason_code, error_message)` is decided
by the first failing content rule, evaluated in the order `max_latency_ms`,
`expected_substring`, `expected_json_keys` (later rules are not consulted),
and when every configured rule passes the check is up with null reason code
and message — except that when the JSON path walk raises a `ValueError`
(an `isdigit`-true path part with no decimal value, such as `'²'`, indexing
an array), the exception escapes the rule evaluation and the check is
instead classified by `classify_exception` (`unknown_error` with the
exception text). -/
theorem run_single_check_content_rule_order (ud : UnicodeData)
    (jl : String → Option Json) (target : Target) (status : ℤ) (body : List ℕ)
    (elapsed_us : ℤ) (h2 : 200 ≤ status ∧ status < 400) :
    ((run_single_check_u ud jl target (.success status body) elapsed_us).is_up,
        (run_single_check_u ud jl target (.success status body) elapsed_us).reason_code,
        (run_single_check_u ud jl target (.success status body) elapsed_us).error_message)
      = match first_failing_rule_u ud jl target body (some (Int.tdiv elapsed_us 1000)) with
        | .ok (some f) => (false, some f.1, some f.2)
        | .ok none => (true, none, none)
        | .error msg =>
          (false, some (classify_exception (.otherErr msg)).1,
            some (classify_exception (.otherErr msg)).2) := by
  have hdec : decide (200 ≤ status ∧ status < 400) = true := by simpa using h2
  have heq := validate_content_rules_u_eq_first_failing ud jl target body
    (some (Int.tdiv elapsed_us 1000))
  rcases hff : first_failing_rule_u ud jl target body (some (Int.tdiv elapsed_us 1000))
      with e | of
  · rw [hff] at heq
    simp [run_single_check_u, hdec, heq]
  · rcases of with _ | f
    · rw [hff] at heq
      simp [run_single_check_u, hdec, heq]
    · rw [hff] at heq
      simp [run_single_check_u, hdec, heq]

/-- C5 witness: a 200 response on a target with a 100 ms latency cap, probed
at 250 ms, fails on the latency rule (no raise involved). -/
theorem run_single_check_content_rule_order_witness :
    ((run_single_check_u exUnicode exParse exTargetLat (.success 200 []) 250000).is_up,
        (run_single_check_u exUnicode exParse exTargetLat
          (.success 200 []) 250000).reason_code,
        (run_single_check_u exUnicode exParse exTargetLat
          (.success 200 []) 250000).error_message)
      = match first_failing_rule_u exUnicode exParse exTargetLat []
            (some (Int.tdiv 250000 1000)) with
        | .ok (some f) => (false, some f.1, some f.2)
        | .ok none => (true, none, none)
        | .error msg =>
          (false, some (classify_exception (.otherErr msg)).1,
            some (classify_exception (.otherErr msg)).2) :=
  run_single_check_content_rule_order exUnicode exParse exTargetLat 200 [] 250000
    (by decide)

/-- C6 counterexample: with expected substring "ba" and body bytes
`[0x62, 0xFF, 0x61]`, the code's substring check passes — `errors="ignore"`
drops the invalid byte, decoding to "ba" — although the replacement-decoded
text (with U+FFFD in the middle) does not contain the substring.  The
substring search therefore does not operate on replacement-decoded text. -/
theorem validate_content_rules_replace_decoding_cex :
    validate_content_rules exParse exTarget [0x62, 0xFF, 0x61] (some 5)
        = (true, none, none) ∧
      strContains "ba" (decodeUtf8Replace [0x62, 0xFF, 0x61]) = false ∧
      decodeUtf8Replace [0x62, 0xFF, 0x61] ≠ decodeUtf8Ignore [0x62, 0xFF, 0x61] :=
  ⟨by decide, by decide, by decide⟩

/-- C6 (amended): before the `expected_substring` search and before the
`expected_json_keys` JSON parse, the body bytes are decoded as UTF-8 with
invalid bytes dropped (`errors="ignore"`, not replacement decoding), and the
substring check and the JSON parse both operate on that ignore-decoded
text. -/
theorem validate_content_rules_ignore_decoding
    (jl : String → Option Json) (target : Target) (body_bytes : List ℕ)
    (latency_ms : Option ℤ) :
    validate_content_rules jl target body_bytes latency_ms
      = validate_content_rules_text jl target (decodeUtf8Ignore body_bytes) latency_ms :=
  rfl

end GenTrack
